import Mathlib

/-!
Verification of `src/tools/ast_syntax_checker/main.py` (the Marco AST
syntax checker): a shallow embedding of the notation parser
(`ASTSyntaxChecker._parse_ron_content` and its helpers), the AST
validator (`ASTValidator`) and the display-hints generator
(`DisplayHintsGenerator`), together with theorems settling the
specification's claims about them.

Modelling conventions:
* Parsed data (Python `str`/`int`/`bool`/`float`/`list`/`dict`) is the
  inductive `Value`.  Parsed dictionaries always have string keys, so
  `Value.dict` carries `List (String × Value)` in insertion order with
  unique keys, mirroring a Python `dict`.
* Python exceptions are modelled with `Except PyErr`; code that cannot
  raise is a plain function.
* Python `==` is `pyEq` (`True == 1` holds; `str`/`int` never compare
  equal).  Python truthiness is `pyTruthy`.
* Python floats are kept as exact decimals `m / 10 ^ e`; no claim
  depends on binary floating point, only on the shapes produced by the
  parser's numeric branch.
* Index-driven loops of the parser are given a fuel argument that
  strictly over-approximates the number of loop steps (each Python loop
  iteration advances the scan position by at least one character, and
  nesting depth is bounded by the input length, so `(n+2)^2` steps more
  than suffice); the fuel is never exhausted on any input.
-/

namespace AstSyntaxChecker

/-- A parsed Python value as produced by `_parse_ron_content`: the
`str`/`int`/`bool`/`float` scalars together with `list`s and
string-keyed `dict`s.  A Python float is kept as the exact decimal
`mantissa / 10 ^ exp`. -/
inductive Value where
  | str : String → Value
  | int : Int → Value
  | bool : Bool → Value
  | float : Int → Nat → Value
  | list : List Value → Value
  | dict : List (String × Value) → Value

/-- A Python dictionary with string keys, in insertion order. -/
abbrev PyDict := List (String × Value)

/-- Python `d[key]` / `key in d` lookup on a string-keyed dict. -/
def dictGet : PyDict → String → Option Value
  | [], _ => none
  | (k, v) :: rest, key => if k = key then some v else dictGet rest key

/-- Python `d.get(key, default)`. -/
def dictGetD (d : PyDict) (key : String) (dflt : Value) : Value :=
  (dictGet d key).getD dflt

/-- Python `d[key] = v`: replaces the value of an existing key in place,
otherwise appends the pair. -/
def dictInsert : PyDict → String → Value → PyDict
  | [], key, v => [(key, v)]
  | (k, w) :: rest, key, v =>
      if k = key then (k, v) :: rest else (k, w) :: dictInsert rest key v

/-- Python `d.update(new)`. -/
def dictUpdate (d new : PyDict) : PyDict :=
  new.foldl (fun acc kv => dictInsert acc kv.1 kv.2) d

/-- Python truthiness of a value (`if value:`). -/
def pyTruthy : Value → Bool
  | .str s => s ≠ ""
  | .int n => n ≠ 0
  | .bool b => b
  | .float m _ => m ≠ 0
  | .list xs => !xs.isEmpty
  | .dict es => !es.isEmpty

/-- Whether a value is hashable in Python (usable as a dict key or
tested against a set); lists and dicts are not. -/
def hashable : Value → Bool
  | .list _ => false
  | .dict _ => false
  | _ => true

/-- The exceptions the embedded code can raise. -/
inductive PyErr where
  | attributeError : PyErr
  | typeError : PyErr
  | valueError : PyErr

theorem dictGet_sizeOf_lt {es : PyDict} {k : String} {v : Value}
    (h : dictGet es k = some v) : sizeOf v < sizeOf es := by
  induction es with
  | nil => simp [dictGet] at h
  | cons kv rest ih =>
    obtain ⟨k', v'⟩ := kv
    by_cases hk : k' = k
    · rw [dictGet, if_pos hk] at h
      cases h
      simp
      omega
    · rw [dictGet, if_neg hk] at h
      have := ih h
      simp
      omega

mutual

/-- Python `==` on parsed values: numeric kinds (`int`/`bool`/`float`)
compare by numeric value (`True == 1`), strings by content, lists
element-wise, dicts by keys and values (insertion order irrelevant);
values of unrelated kinds are unequal. -/
def pyEq : Value → Value → Bool
  | .str a, .str b => a = b
  | .int a, .int b => a = b
  | .int a, .bool b => a = (if b then 1 else 0)
  | .bool a, .int b => (if a then 1 else 0 : Int) = b
  | .bool a, .bool b => a = b
  | .float m e, .int b => m = b * (10 : Int) ^ e
  | .int a, .float m e => a * (10 : Int) ^ e = m
  | .float m e, .bool b => m = (if b then 1 else 0) * (10 : Int) ^ e
  | .bool a, .float m e => (if a then 1 else 0 : Int) * (10 : Int) ^ e = m
  | .float m e, .float m' e' => m * (10 : Int) ^ e' = m' * (10 : Int) ^ e
  | .list xs, .list ys => pyEqList xs ys
  | .dict xs, .dict ys => xs.length = ys.length && pyEqEntries xs ys
  | _, _ => false
termination_by a _ => sizeOf a
decreasing_by
  all_goals simp_wf
  all_goals omega

def pyEqList : List Value → List Value → Bool
  | [], [] => true
  | x :: xs, y :: ys => pyEq x y && pyEqList xs ys
  | _, _ => false
termination_by xs _ => sizeOf xs
decreasing_by
  all_goals simp_wf
  all_goals omega

def pyEqEntries : List (String × Value) → PyDict → Bool
  | [], _ => true
  | (k, v) :: rest, ys =>
      (match dictGet ys k with
       | some w => pyEq v w
       | none => false) && pyEqEntries rest ys
termination_by xs _ => sizeOf xs
decreasing_by
  all_goals simp_wf
  all_goals omega

end

/-- Equality of an optional value (a Python `.get` result, `None` when
absent) against a present value; `None == v` is false for parsed values. -/
def optPyEq (o : Option Value) (v : Value) : Bool :=
  match o with
  | some w => pyEq w v
  | none => false

/-- The single-quote character, used by Python `repr` of strings and by
the validator's diagnostic texts. -/
def sq : String := String.mk [Char.ofNat 39]

/-- Decimal rendering of the float `m / 10 ^ e` (Python prints parsed
decimal literals back in this shape; no claim depends on float text). -/
def floatRepr (m : Int) (e : Nat) : String :=
  if e = 0 then toString m ++ (".0")
  else
    let sign := if m < 0 then ("-") else ("")
    let digits := toString m.natAbs
    let digits := if digits.length ≤ e then
        String.mk (List.replicate (e + 1 - digits.length) (Char.ofNat 48)) ++ digits
      else digits
    sign ++ String.mk (digits.data.take (digits.length - e)) ++ (".")
      ++ String.mk (digits.data.drop (digits.length - e))

mutual

/-- Python `repr` of a parsed value (also `str` for everything except
strings).  Strings are single-quoted; escaping of quotes inside strings
is not modelled (no parsed text in the claims contains one). -/
def pyRepr : Value → String
  | .str s => sq ++ s ++ sq
  | .int n => toString n
  | .bool b => if b then ("True") else ("False")
  | .float m e => floatRepr m e
  | .list xs => ("[") ++ String.intercalate (", ") (pyReprList xs) ++ ("]")
  | .dict es =>
      String.mk [Char.ofNat 123] ++ String.intercalate (", ") (pyReprEntries es)
        ++ String.mk [Char.ofNat 125]
termination_by v => sizeOf v
decreasing_by
  all_goals simp_wf
  all_goals omega

def pyReprList : List Value → List String
  | [] => []
  | x :: xs => pyRepr x :: pyReprList xs
termination_by xs => sizeOf xs
decreasing_by
  all_goals simp_wf
  all_goals omega

def pyReprEntries : List (String × Value) → List String
  | [] => []
  | (k, v) :: rest => (sq ++ k ++ sq ++ (": ") ++ pyRepr v) :: pyReprEntries rest
termination_by xs => sizeOf xs
decreasing_by
  all_goals simp_wf
  all_goals omega

end

/-- Python `str` of a parsed value, as interpolated into f-strings. -/
def pyStr : Value → String
  | .str s => s
  | v => pyRepr v

/-- Python `str.lower()` restricted to ASCII (all names the checker
compares case-insensitively are ASCII). -/
def pyLowerChar (c : Char) : Char :=
  if 65 ≤ c.toNat ∧ c.toNat ≤ 90 then Char.ofNat (c.toNat + 32) else c

/-- Python `s.lower()`. -/
def pyLower (s : String) : String := String.mk (s.data.map pyLowerChar)

/-! ## The notation parser

Embedding of `ASTSyntaxChecker._parse_ron_content` and its helpers.
The Python code scans the text with an integer index `i`; the loops are
rendered with helper scanners over the remaining character list plus a
fuel argument bounding the number of loop steps (see the header note).
-/

/-- The opening-brace character. -/
def lbrace : Char := Char.ofNat 123

/-- The closing-brace character. -/
def rbrace : Char := Char.ofNat 125

/-- The whitespace characters stripped by Python `str.strip()`. -/
def pyWs : List Char := [' ', '\t', '\n', '\r', Char.ofNat 11, Char.ofNat 12]

/-- Python `s.strip()` on a character list. -/
def pyStripChars (cs : List Char) : List Char :=
  ((cs.dropWhile (pyWs.contains ·)).reverse.dropWhile (pyWs.contains ·)).reverse

/-- Python `s.strip(c)` for a single character `c` (both ends, repeatedly). -/
def stripChar (t : Char) (cs : List Char) : List Char :=
  ((cs.dropWhile (· = t)).reverse.dropWhile (· = t)).reverse

/-- Python substring test `needle in hay`. -/
def containsSub (hay needle : List Char) : Bool :=
  if needle.isPrefixOf hay then true
  else
    match hay with
    | [] => false
    | _ :: t => containsSub t needle

/-- Python `s.find(c)` for a character known to occur. -/
def idxOfChar : List Char → Char → Nat
  | [], _ => 0
  | c :: rest, t => if c = t then 0 else 1 + idxOfChar rest t

/-- Python `s.rfind(c)` for a character known to occur. -/
def lastIdxOfChar (cs : List Char) (t : Char) : Nat :=
  cs.length - 1 - idxOfChar cs.reverse t

/-- Python slice `content[a:b]`. -/
def sliceCs (cs : List Char) (a b : Nat) : List Char :=
  (cs.drop a).take (b - a)

/-- Python `content[i:i+len(s)] == s`. -/
def sliceEq (cs : List Char) (i : Nat) (s : String) : Bool :=
  sliceCs cs i (i + s.length) = s.data

/-- The index reached from `i` by a Python loop `while i < len and
p(content[i]): i += 1`. -/
def skipAt (cs : List Char) (p : Char → Bool) (i : Nat) : Nat :=
  i + ((cs.drop i).takeWhile p).length

/-- Python `s.isdigit()`. -/
def isPyDigits (cs : List Char) : Bool :=
  !cs.isEmpty && cs.all Char.isDigit

/-- Python `int(s)` on an all-digit string. -/
def pyDigitsToInt (cs : List Char) : Int :=
  Int.ofNat (cs.foldl (fun a c => a * 10 + (c.toNat - 48)) 0)

/-- Whether Python `float(s)` succeeds on a string drawn from digits,
`.` and `-` starting with a digit or `-`: after an optional leading
sign there must remain only digits and at most one dot, with at least
one digit. -/
def isValidPyFloat (cs : List Char) : Bool :=
  let t := match cs with
    | c :: rest => if c = '-' then rest else cs
    | [] => cs
  (!t.isEmpty) && t.all (fun c => c.isDigit || c = '.')
    && (t.filter (· = '.')).length ≤ 1 && t.any Char.isDigit

/-- Python `float(s)` on a literal accepted by `isValidPyFloat`,
kept as an exact decimal. -/
def parseFloatLit (cs : List Char) : Value :=
  let neg : Bool := match cs with
    | c :: _ => c == '-'
    | [] => false
  let t := if neg then cs.drop 1 else cs
  let ip := t.takeWhile (· ≠ '.')
  let fp := (t.dropWhile (· ≠ '.')).drop 1
  let m := (pyDigitsToInt (ip ++ fp)).natAbs
  .float (if neg then -(m : Int) else (m : Int)) fp.length

mutual

/-- Characters consumed by the string-value scan of
`_parse_ron_structure` (`while i < len and content[i] != '"':` with a
two-step advance past backslashes). -/
def strScan : List Char → Nat
  | [] => 0
  | c :: rest =>
      if c = '"' then 0
      else if c = '\\' then 2 + strScanSkip rest
      else 1 + strScan rest

/-- Continuation of `strScan` after a backslash consumed the next
character as well. -/
def strScanSkip : List Char → Nat
  | [] => 0
  | _ :: rest => strScan rest

end

/-- Characters consumed by the `Some( ... )` scan: runs until the
parenthesis depth returns to zero or the input ends, counting the
closing parenthesis. -/
def parenScan : List Char → Nat → Nat
  | [], _ => 0
  | c :: rest, depth =>
      let d := if c = '(' then depth + 1 else if c = ')' then depth - 1 else depth
      if d = 0 then 1 else 1 + parenScan rest d

/-- Characters consumed by the nested-object scan of
`_parse_ron_array`: runs until the brace depth returns to zero or the
input ends, counting the closing brace. -/
def braceScan : List Char → Nat → Nat
  | [], _ => 0
  | c :: rest, depth =>
      let d := if c = lbrace then depth + 1 else if c = rbrace then depth - 1 else depth
      if d = 0 then 1 else 1 + braceScan rest d

/-- Characters consumed by the fallback-value scan of
`_parse_ron_structure`: runs to the next comma at brace depth zero. -/
def fbScan : List Char → Int → Nat
  | [], _ => 0
  | c :: rest, d =>
      if c = ',' ∧ d = 0 then 0
      else 1 + fbScan rest (if c = lbrace then d + 1 else if c = rbrace then d - 1 else d)

/-- The scalar produced for `Some(inner)`: an int if all digits, a
boolean for `true`/`false`, otherwise the quote-stripped text. -/
def someValue (inner : List Char) : Value :=
  if isPyDigits inner then .int (pyDigitsToInt inner)
  else if inner = ("true").data ∨ inner = ("false").data then .bool (inner = ("true").data)
  else .str (String.mk (stripChar '"' inner))

mutual

/-- One pass of the `_parse_ron_structure` loop: skip separators, read
a key up to the next colon, parse the value with `valueAt`, record the
assignment, and continue. -/
def structLoop (cs : List Char) (i : Nat) (acc : PyDict) : Nat → Except PyErr PyDict
  | 0 => .ok acc
  | fuel + 1 =>
      let i := skipAt cs (fun c => c = ' ' || c = '\t' || c = '\n' || c = ',') i
      if cs.length ≤ i then .ok acc
      else
        let ks := i
        let i := skipAt cs (· ≠ ':') i
        if cs.length ≤ i then .ok acc
        else
          let key := String.mk (pyStripChars (sliceCs cs ks i))
          let i := skipAt cs (fun c => c = ' ' || c = '\t' || c = '\n') (i + 1)
          if cs.length ≤ i then .ok acc
          else
            match valueAt cs i fuel with
            | .error e => .error e
            | .ok (asg, i') =>
                structLoop cs i'
                  (match asg with
                   | some v => dictInsert acc key v
                   | none => acc) fuel

/-- The value dispatch of `_parse_ron_structure` at index `i`: quoted
string, array, `Some(...)`, number, boolean, or the verbatim fallback.
Returns the optional assigned value and the next index. -/
def valueAt (cs : List Char) (i : Nat) : Nat → Except PyErr (Option Value × Nat)
  | 0 => .ok (none, cs.length)
  | fuel + 1 =>
      match cs.get? i with
      | none => .ok (none, i)
      | some c =>
          if c = '"' then
            let n := strScan (cs.drop (i + 1))
            .ok (some (.str (String.mk (sliceCs cs (i + 1) (i + 1 + n)))), i + 1 + n + 1)
          else if c = '[' then
            match arrayLoop cs (skipAt cs (fun ch => ch = ' ' || ch = '\t' || ch = '\n') (i + 1)) [] fuel with
            | .error e => .error e
            | .ok (items, i') => .ok (some (.list items), i')
          else if sliceEq cs i ("Some") then
            match cs.get? (i + 4) with
            | some c2 =>
                if c2 = '(' then
                  let n := parenScan (cs.drop (i + 5)) 1
                  let iF := i + 5 + n
                  .ok (some (someValue (sliceCs cs (i + 5) (iF - 1))), iF)
                else .ok (none, i + 4)
            | none => .ok (none, i + 4)
          else if c.isDigit || c = '-' then
            let n := ((cs.drop i).takeWhile (fun ch => ch.isDigit || ch = '.' || ch = '-')).length
            let v := sliceCs cs i (i + n)
            if isPyDigits v then .ok (some (.int (pyDigitsToInt v)), i + n)
            else if isValidPyFloat v then .ok (some (parseFloatLit v), i + n)
            else .error .valueError
          else if sliceEq cs i ("true") then .ok (some (.bool true), i + 4)
          else if sliceEq cs i ("false") then .ok (some (.bool false), i + 5)
          else
            let n := fbScan (cs.drop i) 0
            let v := pyStripChars (sliceCs cs i (i + n))
            .ok ((if v.isEmpty then none else some (.str (String.mk v))), i + n)

/-- One pass of the `_parse_ron_array` loop: separators are skipped,
an uppercase-led element becomes a nested object parsed by
`structLoop` (its leading type name is discarded), anything else is a
bare value captured as a quote-stripped string. -/
def arrayLoop (cs : List Char) (i : Nat) (acc : List Value) : Nat → Except PyErr (List Value × Nat)
  | 0 => .ok (acc, i)
  | fuel + 1 =>
      match cs.get? i with
      | none => .ok (acc, i)
      | some c =>
          if c = ']' then .ok (acc, i + 1)
          else if c = ' ' || c = '\t' || c = '\n' || c = ',' then arrayLoop cs (i + 1) acc fuel
          else if c.isUpper then
            let j := skipAt cs (fun ch => !(ch = ' ' || ch = '\t' || ch = '\n' || ch = lbrace)) i
            let j2 := skipAt cs (fun ch => ch = ' ' || ch = '\t' || ch = '\n') j
            match cs.get? j2 with
            | some cb =>
                if cb = lbrace then
                  let n := braceScan (cs.drop (j2 + 1)) 1
                  let iF := j2 + 1 + n
                  match structLoop (sliceCs cs (j2 + 1) (iF - 1)) 0 [] fuel with
                  | .error e => .error e
                  | .ok node => arrayLoop cs iF (acc ++ [.dict node]) fuel
                else arrayLoop cs j2 acc fuel
            | none => arrayLoop cs j2 acc fuel
          else
            let n := ((cs.drop i).takeWhile (fun ch => !(ch = ',' || ch = ']'))).length
            let v := stripChar '"' (pyStripChars (sliceCs cs i (i + n)))
            arrayLoop cs (i + n)
              (if v.isEmpty then acc else acc ++ [.str (String.mk v)]) fuel

end

/-- `ASTSyntaxChecker._parse_ron_structure`, seeded with fuel that the
loops cannot exhaust. -/
def parseRonStructure (cs : List Char) : Except PyErr PyDict :=
  structLoop cs 0 [] ((cs.length + 4) * (cs.length + 4))

/-- `ASTSyntaxChecker._parse_ron_object`: cut the text between the
first opening and last closing brace and parse it as a structure; any
internal exception is caught and yields the empty dict. -/
def parseRonObject (cs : List Char) : PyDict :=
  if ¬ cs.contains lbrace then []
  else if ¬ cs.contains rbrace then []
  else
    let bs := idxOfChar cs lbrace
    let be := lastIdxOfChar cs rbrace
    match parseRonStructure (pyStripChars (sliceCs cs (bs + 1) be)) with
    | .ok d => d
    | .error _ => []

/-- `ASTSyntaxChecker._parse_syntax_node`: `Name { k: v, ... }` on one
line, every property value kept as a quote-stripped string. -/
def parseSyntaxNode (node : List Char) : PyDict :=
  if ¬ node.contains lbrace then []
  else
    let nameEnd := idxOfChar node lbrace
    let nodeName := String.mk (pyStripChars (node.take nameEnd))
    let body := node.drop (nameEnd + 1)
    let body := if body.contains rbrace then body.take (lastIdxOfChar body rbrace) else body
    let props := (body.splitOn ',').foldl
      (fun acc prop =>
        if prop.contains ':' then
          let key := String.mk (pyStripChars (prop.takeWhile (· ≠ ':')))
          let v := String.mk (stripChar '"' (pyStripChars ((prop.dropWhile (· ≠ ':')).drop 1)))
          dictInsert acc key (.str v)
        else acc) []
    [(nodeName, .dict props)]

/-- The multi-node loop of `_parse_ron_content`'s syntax branch: lines
are accumulated into the current node text, a new node starts at each
line containing an opening brace, and each finished node is parsed by
`parseSyntaxNode` and merged into the result. -/
def syntaxLinesLoop : List (List Char) → List Char → PyDict → PyDict
  | [], current, result =>
      if current.isEmpty then result
      else
        let nd := parseSyntaxNode current
        if nd.isEmpty then result else dictUpdate result nd
  | line :: rest, current, result =>
      let l := pyStripChars line
      if ¬ l.isEmpty ∧ l.contains lbrace then
        let result :=
          if current.isEmpty then result
          else
            let nd := parseSyntaxNode current
            if nd.isEmpty then result else dictUpdate result nd
        syntaxLinesLoop rest l result
      else if ¬ l.isEmpty ∧ ¬ current.isEmpty then
        syntaxLinesLoop rest (current ++ (" ").data ++ l) result
      else
        syntaxLinesLoop rest current result

/-- `ASTSyntaxChecker._parse_ron_content`: strip full-line comments,
then dispatch on the surviving text — a `RootNode`/`Document` object,
the multi-node syntax shape (`{` present together with `node_type`),
or the raw-content fallback.  The surrounding `try/except` of the
source can only be reached by exceptions that the inner branches
already catch, so the function is total and never signals an error. -/
def parseRonContent (content : String) : PyDict :=
  let ls := (content.data.splitOn '\n').filter
    (fun l => ¬ (pyStripChars l).isEmpty ∧ ¬ ("#").data.isPrefixOf (pyStripChars l))
  let cs := pyStripChars (List.intercalate (("\n").data) ls)
  if cs.isEmpty then []
  else if ("RootNode").data.isPrefixOf cs ∨ ("Document").data.isPrefixOf cs then
    parseRonObject cs
  else if cs.contains lbrace ∧ containsSub cs (("node_type").data) then
    syntaxLinesLoop (cs.splitOn '\n') [] []
  else [(("raw_content"), .str (String.mk cs))]

/-! ## The AST validator

Embedding of `ASTValidator`.  Python's `self.syntax_nodes` dict is
keyed by arbitrary (hashable) parsed values — the raw `node_type`
values and the lowercased declaration keys — so it is modelled as an
association list over `Value` keys compared with Python `==`.
Exceptions (`TypeError` on an unhashable key, `AttributeError` on
`.lower()`/`.items()` of a non-string/non-dict) are modelled with
`Except PyErr`.
-/

/-- The `syntax_nodes` mapping: node-type keys to their definitions. -/
abbrev SynNodes := List (Value × PyDict)

/-- Lookup in `syntax_nodes` by Python equality of keys. -/
def snGet : SynNodes → Value → Option PyDict
  | [], _ => none
  | (k, d) :: rest, key => if pyEq k key then some d else snGet rest key

/-- Membership test `key in syntax_nodes`. -/
def snHasKey (sn : SynNodes) (key : Value) : Bool :=
  (snGet sn key).isSome

/-- Python `nodes[key] = value`: replace the value of an equal key in
place (the stored key object is kept), otherwise append. -/
def snInsert : SynNodes → Value → PyDict → SynNodes
  | [], key, d => [(key, d)]
  | (k, d') :: rest, key, d =>
      if pyEq k key then (k, d) :: rest else (k, d') :: snInsert rest key d

/-- The entry loop of `_extract_syntax_nodes`: every dict value with a
`node_type` field is registered first under its `node_type` value
(verbatim — `TypeError` if unhashable) and then under the lowercased
declaration key. -/
def extractFromEntries : SynNodes → PyDict → Except PyErr SynNodes
  | acc, [] => .ok acc
  | acc, (k, v) :: rest =>
      match v with
      | .dict d =>
          match dictGet d ("node_type") with
          | some nt =>
              if hashable nt then
                extractFromEntries (snInsert (snInsert acc nt d) (.str (pyLower k)) d) rest
              else .error .typeError
          | none => extractFromEntries acc rest
      | _ => extractFromEntries acc rest

/-- `ASTValidator._extract_syntax_nodes` (the generator's
`DisplayHintsGenerator._extract_syntax_nodes` is textually identical):
descend into a `root` entry when present (`AttributeError` if its
value is not a dict), then register every node-type definition. -/
def extractSyntaxNodes (synData : PyDict) : Except PyErr SynNodes :=
  match dictGet synData ("root") with
  | some (.dict d) => extractFromEntries [] d
  | some _ => .error .attributeError
  | none => extractFromEntries [] synData

/-- The fixed whitelist of intrinsic node types (`common_types`). -/
def commonTypes : List String :=
  [("root"), ("heading"), ("paragraph"), ("text"), ("strong"), ("emphasis"),
   ("blockquote"), ("list"), ("listItem"), ("codeBlock"), ("inlineCode"),
   ("thematicBreak"), ("link"), ("image"), ("delete")]

/-- `ASTValidator._is_valid_node_type`: membership in the fixed
whitelist, in `syntax_nodes`, or (for strings) in `syntax_nodes` after
lowercasing.  An unhashable type raises `TypeError` at the first
membership test; a non-string type absent from `syntax_nodes` raises
`AttributeError` at `.lower()`. -/
def isValidNodeType (sn : SynNodes) (nodeType : Value) : Except PyErr Bool :=
  if ¬ hashable nodeType then .error .typeError
  else
    match nodeType with
    | .str s =>
        .ok (commonTypes.contains s || snHasKey sn (.str s) || snHasKey sn (.str (pyLower s)))
    | _ => if snHasKey sn nodeType then .ok true else .error .attributeError

/-- The diagnostic for a node value lacking a `type` key (the node is
interpolated with Python `str`). -/
def missingTypeMsg (node : PyDict) : String :=
  ("Node missing ") ++ sq ++ ("type") ++ sq ++ (" field: ") ++ pyRepr (.dict node)

/-- The diagnostic for a type unknown to whitelist and schema alike. -/
def unknownTypeMsg (nodeType : Value) : String :=
  ("Unknown node type: ") ++ pyStr nodeType

/-- The positional diagnostic for a misplaced frontmatter node. -/
def frontmatterMsg : String :=
  ("Frontmatter node must be first child of Document")

/-- `ASTValidator._validate_position_rules`: a node whose lowercased
type is `frontmatter` is diagnosed at any sibling position above zero.
`.lower()` on a non-string type raises `AttributeError`. -/
def validatePositionRules (nodeType : Value) (position : Nat) : Except PyErr (List String) :=
  match nodeType with
  | .str s =>
      .ok (if pyLower s = ("frontmatter") ∧ 0 < position then [frontmatterMsg] else [])
  | _ => .error .attributeError

/-- The diagnostic for a heading without `depth`. -/
def headingDepthAttrMsg : String :=
  ("Heading node missing required ") ++ sq ++ ("depth") ++ sq ++ (" attribute")

/-- The diagnostic for a link without `url`. -/
def linkUrlAttrMsg : String :=
  ("Link node missing required ") ++ sq ++ ("url") ++ sq ++ (" attribute")

/-- The diagnostic for an image without `url`. -/
def imageUrlAttrMsg : String :=
  ("Image node missing required ") ++ sq ++ ("url") ++ sq ++ (" attribute")

/-- The diagnostic for an image without `alt`. -/
def imageAltAttrMsg : String :=
  ("Image node missing required ") ++ sq ++ ("alt") ++ sq ++ (" attribute")

/-- `ASTValidator._validate_attributes`: per-type required attributes —
`heading` needs `depth`, `link` needs `url`, `image` needs `url` and
`alt`; one diagnostic is appended per missing attribute. -/
def validateAttributes (nodeType : Value) (node : PyDict) : List String :=
  (if pyEq nodeType (.str ("heading")) && (dictGet node ("depth")).isNone
   then [headingDepthAttrMsg] else [])
  ++ (if pyEq nodeType (.str ("link")) && (dictGet node ("url")).isNone
      then [linkUrlAttrMsg] else [])
  ++ (if pyEq nodeType (.str ("image")) then
        (if (dictGet node ("url")).isNone then [imageUrlAttrMsg] else [])
        ++ (if (dictGet node ("alt")).isNone then [imageAltAttrMsg] else [])
      else [])

mutual

/-- `ASTValidator._validate_node`: report a missing `type` field and
stop; report an unknown type and stop; otherwise append positional
diagnostics, recurse into the `children` list (dict elements only,
positions counted over all elements), and finally append the
required-attribute diagnostics.  The parent/child containment check of
the source (step 2) computes a verdict and discards it (`pass`), so it
contributes nothing and is not modelled. -/
def validateNode (sn : SynNodes) (node : PyDict) (parentType : Option Value)
    (position : Nat) : Except PyErr (List String) :=
  match dictGet node ("type") with
  | none => .ok [missingTypeMsg node]
  | some nodeType =>
      match isValidNodeType sn nodeType with
      | .error e => .error e
      | .ok false => .ok [unknownTypeMsg nodeType]
      | .ok true =>
          match validatePositionRules nodeType position with
          | .error e => .error e
          | .ok posErrs =>
              match childErrsOf sn nodeType node with
              | .error e => .error e
              | .ok childErrs =>
                  .ok (posErrs ++ childErrs ++ validateAttributes nodeType node)
termination_by 2 * sizeOf node + 1
decreasing_by
  all_goals simp_wf
  all_goals omega

/-- Step 4 of `_validate_node`: recurse into a `children` value when it
is a list. -/
def childErrsOf (sn : SynNodes) (nodeType : Value) (node : PyDict) :
    Except PyErr (List String) :=
  match h : dictGet node ("children") with
  | some (.list cs) => validateChildren sn nodeType cs 0
  | some _ => .ok []
  | none => .ok []
termination_by 2 * sizeOf node
decreasing_by
  all_goals simp_wf
  have := dictGet_sizeOf_lt h
  simp at this
  omega

/-- The `enumerate(children)` loop of `_validate_node`: dict elements
are validated at their index, other elements are skipped. -/
def validateChildren (sn : SynNodes) (parentType : Value) :
    List Value → Nat → Except PyErr (List String)
  | [], _ => .ok []
  | .dict d :: rest, i =>
      (match validateNode sn d (some parentType) i with
       | .error e => .error e
       | .ok errs =>
           match validateChildren sn parentType rest (i + 1) with
           | .error e => .error e
           | .ok more => .ok (errs ++ more))
  | _ :: rest, i => validateChildren sn parentType rest (i + 1)
termination_by cs _ => 2 * sizeOf cs
decreasing_by
  all_goals simp_wf
  all_goals (try simp)
  all_goals omega

end

/-- The top-level loop of `ASTValidator.validate` step 1: every dict
value of the resolved root mapping that carries a `type` field is
validated, as is any dict value under a key lowercasing to
`rootnode`. -/
def walkEntries (sn : SynNodes) : PyDict → Except PyErr (List String)
  | [] => .ok []
  | (k, v) :: rest =>
      match (match v with
             | .dict d =>
                 if (dictGet d ("type")).isSome then validateNode sn d none 0
                 else if pyLower k = ("rootnode") then validateNode sn d none 0
                 else .ok []
             | _ => .ok []) with
      | .error e => .error e
      | .ok errs =>
          match walkEntries sn rest with
          | .error e => .error e
          | .ok more => .ok (errs ++ more)

mutual

/-- `ASTValidator._collect_ast_nodes`: pre-order flatten of every dict
carrying a `type` field, descending through `children` lists and every
other value alike. -/
def collectNodes : Value → List PyDict
  | .dict es =>
      (if (dictGet es ("type")).isSome then [es] else []) ++ collectFromEntries es
  | .list xs => collectFromList xs
  | _ => []
termination_by v => sizeOf v
decreasing_by
  all_goals simp_wf
  all_goals (try simp)
  all_goals omega

/-- The `node.items()` loop of `_collect_ast_nodes`: a `children` list
is walked element-wise and any other value is collected recursively;
since the recursive collection of a list value is exactly the
element-wise walk, the source's `children` special case coincides with
the generic case and both are the same expression here. -/
def collectFromEntries : PyDict → List PyDict
  | [] => []
  | (_, .list xs) :: rest => collectFromList xs ++ collectFromEntries rest
  | (_, v) :: rest => collectNodes v ++ collectFromEntries rest
termination_by es => sizeOf es
decreasing_by
  all_goals simp_wf
  all_goals (try simp)
  all_goals omega

/-- Element-wise collection from a list value. -/
def collectFromList : List Value → List PyDict
  | [] => []
  | x :: rest => collectNodes x ++ collectFromList rest
termination_by xs => sizeOf xs
decreasing_by
  all_goals simp_wf
  all_goals (try simp)
  all_goals omega

end

/-- The coverage diagnostic for a schema entry with no example node. -/
def noExampleMsg (syntaxName : String) (nodeType : Value) : String :=
  ("Syntax defines ") ++ syntaxName ++ (" (node_type: ") ++ pyStr nodeType
    ++ (") but AST has no example of this node type")

/-- The coverage diagnostic for a heading-depth entry with no example
heading of that depth (the interpolated depth is the coerced one). -/
def depthExampleMsg (syntaxName : String) (requiredDepth : Value) : String :=
  ("Syntax defines ") ++ syntaxName ++ (" (heading depth ") ++ pyStr requiredDepth
    ++ (") but AST has no example heading with depth ") ++ pyStr requiredDepth

/-- The string-to-int coercion applied to a schema `depth` before the
coverage comparison (`isinstance(str)` and `isdigit`). -/
def coerceDepth : Value → Value
  | .str s => if isPyDigits s.data then .int (pyDigitsToInt s.data) else .str s
  | v => v

/-- The body of the `_validate_syntax_coverage` loop for one schema
entry: heading entries with a `depth` demand an example heading of the
numerically coerced depth; every other entry with a `node_type`
demands an example node of that type (compared with Python `==`). -/
def entryCoverage (astNodes : List PyDict) (syntaxName : String)
    (syntaxDef : Value) : List String :=
  match syntaxDef with
  | .dict dd =>
      match dictGet dd ("node_type") with
      | some nodeType =>
          match dictGet dd ("depth") with
          | some rd0 =>
              if pyEq nodeType (.str ("heading")) then
                let rd := coerceDepth rd0
                if astNodes.any (fun n =>
                    optPyEq (dictGet n ("type")) (.str ("heading"))
                      && optPyEq (dictGet n ("depth")) rd)
                then [] else [depthExampleMsg syntaxName rd]
              else
                if astNodes.any (fun n => optPyEq (dictGet n ("type")) nodeType)
                then [] else [noExampleMsg syntaxName nodeType]
          | none =>
              if astNodes.any (fun n => optPyEq (dictGet n ("type")) nodeType)
              then [] else [noExampleMsg syntaxName nodeType]
      | none => []
  | _ => []

/-- `ASTValidator._get_syntax_definitions`: the raw syntax dict, or its
`root` value when present (`AttributeError` at the subsequent
`.items()` if that value is not a dict). -/
def getSyntaxDefinitions (synData : PyDict) : Except PyErr PyDict :=
  match dictGet synData ("root") with
  | some (.dict d) => .ok d
  | some _ => .error .attributeError
  | none => .ok synData

/-- `ASTValidator._validate_syntax_coverage`: flatten the AST and run
`entryCoverage` over every schema entry in order. -/
def validateSyntaxCoverage (synData astData : PyDict) : Except PyErr (List String) :=
  let astNodes := collectNodes (.dict astData)
  match getSyntaxDefinitions synData with
  | .error e => .error e
  | .ok defs => .ok (defs.flatMap (fun kv => entryCoverage astNodes kv.1 kv.2))

/-- `ASTValidator.validate` (with the `syntax_nodes` extraction the
constructor performs first): the structural walk over the root mapping
(descending into a `root` entry when present, and skipping the walk
entirely when that entry is not a dict), followed by the coverage
pass; diagnostics are concatenated in discovery order. -/
def validate (synData astData : PyDict) : Except PyErr (List String) :=
  match extractSyntaxNodes synData with
  | .error e => .error e
  | .ok sn =>
      match (match dictGet astData ("root") with
             | some (.dict d) => walkEntries sn d
             | some _ => .ok []
             | none => walkEntries sn astData) with
      | .error e => .error e
      | .ok walkErrs =>
          match validateSyntaxCoverage synData astData with
          | .error e => .error e
          | .ok covErrs => .ok (walkErrs ++ covErrs)

/-! ## The display-hints generator

Embedding of `DisplayHintsGenerator`.  Its `_extract_syntax_nodes` is
textually identical to the validator's and is shared above.  The
source's `_get_display_info` returns a three-key dict whose fields the
caller reads back with defaults that can never fire (both branches
always set all three keys); it is modelled as a record.
-/

/-- The display metadata resolved for one node type. -/
structure DisplayInfo where
  style : String
  decoration : Value
  markdownSyntax : Value

/-- The fixed block types of `_determine_style`. -/
def blockTypes : List String :=
  [("heading"), ("paragraph"), ("blockquote"), ("list"), ("listItem"),
   ("codeBlock"), ("thematicBreak")]

/-- The fixed inline types of `_determine_style`. -/
def inlineTypes : List String :=
  [("text"), ("strong"), ("emphasis"), ("inlineCode"), ("link"), ("image"),
   ("delete")]

/-- `DisplayHintsGenerator._determine_style`: `root` is a container,
the fixed block set is `block`, the fixed inline set is `inline`,
anything else (including non-string types) is `unknown`. -/
def determineStyle (nodeType : Value) : String :=
  if pyEq nodeType (.str ("root")) then ("container")
  else
    match nodeType with
    | .str s =>
        if blockTypes.contains s then ("block")
        else if inlineTypes.contains s then ("inline")
        else ("unknown")
    | _ => ("unknown")

/-- The fallback `display_map` of `_get_display_info`. -/
def displayMap : List (String × DisplayInfo) :=
  [(("root"), ⟨("container"), .str (""), .str ("")⟩),
   (("heading"), ⟨("block"), .str ("#"), .str ("#")⟩),
   (("paragraph"), ⟨("block"), .str (""), .str ("")⟩),
   (("text"), ⟨("inline"), .str (""), .str ("")⟩),
   (("strong"), ⟨("inline"), .str ("**"), .str ("**")⟩),
   (("emphasis"), ⟨("inline"), .str ("*"), .str ("*")⟩),
   (("blockquote"), ⟨("block"), .str (">"), .str (">")⟩),
   (("list"), ⟨("block"), .str ("-"), .str ("-")⟩),
   (("listItem"), ⟨("block"), .str ("-"), .str ("-")⟩),
   (("codeBlock"), ⟨("block"), .str ("```"), .str ("```")⟩),
   (("inlineCode"), ⟨("inline"), .str ("`"), .str ("`")⟩),
   (("thematicBreak"), ⟨("block"), .str ("---"), .str ("---")⟩),
   (("link"), ⟨("inline"), .str ("[]()"), .str ("[text](url)")⟩),
   (("image"), ⟨("inline"), .str ("![]()"), .str ("![alt](url)")⟩),
   (("delete"), ⟨("inline"), .str ("~~"), .str ("~~")⟩)]

/-- The `display_map.get(node_type, unknown-default)` lookup; only a
string key can equal one of the map's keys. -/
def displayMapGet (nodeType : Value) : DisplayInfo :=
  match nodeType with
  | .str s => ((displayMap.find? (fun p => p.1 = s)).map Prod.snd).getD
      ⟨("unknown"), .str (""), .str ("")⟩
  | _ => ⟨("unknown"), .str (""), .str ("")⟩

/-- `DisplayHintsGenerator._get_display_info`: schema first — a
`syntax_nodes` hit yields the independently re-derived style with the
entry's `markdown_syntax` as decoration and markdown syntax — then the
fixed fallback table.  An unhashable type raises `TypeError` at the
dict membership test. -/
def getDisplayInfo (sn : SynNodes) (nodeType : Value) : Except PyErr DisplayInfo :=
  if ¬ hashable nodeType then .error .typeError
  else
    match snGet sn nodeType with
    | some si =>
        .ok ⟨determineStyle nodeType, dictGetD si ("markdown_syntax") (.str ("")),
             dictGetD si ("markdown_syntax") (.str (""))⟩
    | none => .ok (displayMapGet nodeType)

/-- The attribute-copy loop of `_generate_simple_hints`: every source
entry other than `type` and `children` is stored under its key
prefixed with `attr_`. -/
def addAttrEntries (hints : PyDict) : PyDict → PyDict
  | [] => hints
  | (k, v) :: rest =>
      if k = ("type") ∨ k = ("children") then addAttrEntries hints rest
      else addAttrEntries (dictInsert hints (("attr_") ++ k) v) rest

mutual

/-- `DisplayHintsGenerator._generate_simple_hints`: a dict with a
`type` becomes a hint node (type, style, decoration, markdown_syntax,
prefixed attributes, and a `children` key only when the recursively
generated children are non-empty); a dict without `type` and a list
are rebuilt with falsy results dropped; scalars pass through. -/
def generateSimpleHints (sn : SynNodes) : Value → Except PyErr Value
  | .dict es =>
      (match dictGet es ("type") with
       | some nodeType =>
           (match getDisplayInfo sn nodeType with
            | .error e => .error e
            | .ok info =>
                let hints : PyDict :=
                  [(("type"), nodeType), (("style"), .str info.style),
                   (("decoration"), info.decoration),
                   (("markdown_syntax"), info.markdownSyntax)]
                let hints := addAttrEntries hints es
                match hChildren : dictGet es ("children") with
                | some (.list cs) =>
                    (match genChildren sn cs with
                     | .error e => .error e
                     | .ok ch =>
                         .ok (.dict (if ch.isEmpty then hints
                                     else dictInsert hints ("children") (.list ch))))
                | some _ => .ok (.dict hints)
                | none => .ok (.dict hints))
       | none =>
           match genEntries sn es with
           | .error e => .error e
           | .ok res => .ok (.dict res))
  | .list xs =>
      (match genListItems sn xs with
       | .error e => .error e
       | .ok res => .ok (.list res))
  | v => .ok v
termination_by v => 2 * sizeOf v + 1
decreasing_by
  all_goals simp_wf
  · have := dictGet_sizeOf_lt hChildren
    simp at this
    omega
  all_goals (try simp)
  all_goals omega

/-- The children loop: falsy child hints are dropped. -/
def genChildren (sn : SynNodes) : List Value → Except PyErr (List Value)
  | [] => .ok []
  | c :: rest =>
      match generateSimpleHints sn c with
      | .error e => .error e
      | .ok h =>
          match genChildren sn rest with
          | .error e => .error e
          | .ok more => .ok (if pyTruthy h then h :: more else more)
termination_by cs => 2 * sizeOf cs
decreasing_by
  all_goals simp_wf
  all_goals omega

/-- The plain-dict loop: each value is processed and kept under its key
when the result is truthy. -/
def genEntries (sn : SynNodes) : PyDict → Except PyErr PyDict
  | [] => .ok []
  | (k, v) :: rest =>
      match generateSimpleHints sn v with
      | .error e => .error e
      | .ok h =>
          match genEntries sn rest with
          | .error e => .error e
          | .ok more => .ok (if pyTruthy h then (k, h) :: more else more)
termination_by es => 2 * sizeOf es
decreasing_by
  all_goals simp_wf
  all_goals omega

/-- The list loop: falsy element results are dropped. -/
def genListItems (sn : SynNodes) : List Value → Except PyErr (List Value)
  | [] => .ok []
  | x :: rest =>
      match generateSimpleHints sn x with
      | .error e => .error e
      | .ok h =>
          match genListItems sn rest with
          | .error e => .error e
          | .ok more => .ok (if pyTruthy h then h :: more else more)
termination_by xs => 2 * sizeOf xs
decreasing_by
  all_goals simp_wf
  all_goals omega

end

/-- The root-search loop of `DisplayHintsGenerator.generate`: the first
value under a `rootnode`/`document` key (case-insensitively) or whose
dict value carries a `type` field. -/
def findRootNode : PyDict → Option Value
  | [] => none
  | (k, v) :: rest =>
      if (pyLower k == ("rootnode") || pyLower k == ("document")
          || (match v with
              | .dict d => (dictGet d ("type")).isSome
              | _ => false)) then some v
      else findRootNode rest

/-- The body of `DisplayHintsGenerator.generate` inside its exception
handler: select the root node (falling back to the whole mapping when
the search fails or finds a falsy value), return `None` for a falsy
root, and wrap truthy hints under a `display_hints` key. -/
def generateBody (sn : SynNodes) (astData : PyDict) : Except PyErr (Option Value) :=
  let rootNode :=
    match findRootNode astData with
    | some v => if pyTruthy v then v else .dict astData
    | none => .dict astData
  if ¬ pyTruthy rootNode then .ok none
  else
    match generateSimpleHints sn rootNode with
    | .error e => .error e
    | .ok hints =>
        .ok (if pyTruthy hints then some (.dict [(("display_hints"), hints)]) else none)

/-- `DisplayHintsGenerator(syntax, ast).generate()`: the constructor's
`syntax_nodes` extraction runs outside the `try` of `generate` and its
exceptions propagate; every exception inside the body is caught and
turned into `None`. -/
def generate (synData astData : PyDict) : Except PyErr (Option Value) :=
  match extractSyntaxNodes synData with
  | .error e => .error e
  | .ok sn =>
      match generateBody sn astData with
      | .ok r => .ok r
      | .error _ => .ok none

/-! ## Input classes used by the theorems -/

/-- Whether a value is a dict. -/
def isDictValue : Value → Bool
  | .dict _ => true
  | _ => false

/-- Whether a dict's `type` entry, if any, is a string. -/
def typeFieldIsStr (es : PyDict) : Bool :=
  match dictGet es ("type") with
  | none => true
  | some (.str _) => true
  | some _ => false

mutual

/-- Every dict anywhere inside the value has a string `type` field
whenever it has one at all — the inputs on which the structural walk
cannot raise. -/
def strTyped : Value → Bool
  | .dict es => typeFieldIsStr es && strTypedEntries es
  | .list xs => strTypedList xs
  | _ => true
termination_by v => sizeOf v
decreasing_by
  all_goals simp_wf
  all_goals (try simp)
  all_goals omega

/-- `strTyped` over a dict's values. -/
def strTypedEntries : PyDict → Bool
  | [] => true
  | (_, v) :: rest => strTyped v && strTypedEntries rest
termination_by es => sizeOf es
decreasing_by
  all_goals simp_wf
  all_goals (try simp)
  all_goals omega

/-- `strTyped` over a list's elements. -/
def strTypedList : List Value → Bool
  | [] => true
  | x :: rest => strTyped x && strTypedList rest
termination_by xs => sizeOf xs
decreasing_by
  all_goals simp_wf
  all_goals (try simp)
  all_goals omega

end

/-- Every node-type definition in the dict has a hashable `node_type`
value — the schemas on which `syntax_nodes` extraction cannot raise. -/
def hashableNodeTypes : PyDict → Bool
  | [] => true
  | (_, .dict d) :: rest =>
      (match dictGet d ("node_type") with
       | some nt => hashable nt
       | none => true) && hashableNodeTypes rest
  | _ :: rest => hashableNodeTypes rest

/-- The syntax dicts on which neither `syntax_nodes` extraction nor the
coverage pass raises: a dict-shaped `root` entry (or none at all) with
hashable `node_type` values. -/
def goodSyntax (synData : PyDict) : Bool :=
  match dictGet synData ("root") with
  | some (.dict d) => hashableNodeTypes d
  | some _ => false
  | none => hashableNodeTypes synData

/-- Whether a value is skipped by `syntax_nodes` extraction: anything
but a dict carrying a `node_type` key. -/
def lacksNodeType : Value → Bool
  | .dict dd => (dictGet dd ("node_type")).isNone
  | _ => true

/-! ## The end-to-end scenario of the specification (claim C4) -/

/-- The syntax document of the end-to-end scenario. -/
def scenarioSyntaxText : String :=
  "Heading1 \x7b node_type: \"heading\", depth: 1, markdown_syntax: \"#\" \x7d"

/-- The AST document of the end-to-end scenario: a document consisting
of the single node. -/
def scenarioAstText : String :=
  "Document \x7b type: \"heading\", depth: 1, children: [] \x7d"

/-- The parsed syntax document of the scenario. -/
def scenarioSyntax : PyDict := parseRonContent scenarioSyntaxText

/-- The parsed AST document of the scenario. -/
def scenarioAst : PyDict := parseRonContent scenarioAstText

/-- The hint node the scenario generates. -/
def scenarioHint : PyDict :=
  [(("type"), Value.str ("heading")), (("style"), Value.str ("block")),
   (("decoration"), Value.str ("#")), (("markdown_syntax"), Value.str ("#")),
   (("attr_depth"), Value.int 1)]

/-- A schema with two heading entries differing only in depth (the
string-encoded depths the document-level parser produces). -/
def synDepthPair : PyDict :=
  [(("H1"), Value.dict [(("node_type"), Value.str ("heading")),
      (("depth"), Value.str ("1"))]),
   (("H2"), Value.dict [(("node_type"), Value.str ("heading")),
      (("depth"), Value.str ("2"))])]

/-- An AST supplying only a depth-1 example heading. -/
def astDepthOne : PyDict :=
  [(("a"), Value.dict [(("type"), Value.str ("heading")), (("depth"), Value.int 1),
      (("children"), Value.list [])])]

/-! ## Theorems for the claims -/

/-- C1: for every schema entry that declares a `node_type` and no
`depth` discriminator, the coverage pass emits zero diagnostics for
that entry iff the flat pre-order node list of the AST contains a node
whose `type` equals the entry's `node_type`; when no such node exists
it emits exactly the one diagnostic "Syntax defines <name>
(node_type: <t>) but AST has no example of this node type"
(`validateSyntaxCoverage` is, by definition, the concatenation of
`entryCoverage` over the schema's entries in order). -/
theorem coverage_no_depth_iff (astData : PyDict) (syntaxName : String)
    (dd : PyDict) (nt : Value)
    (h1 : dictGet dd ("node_type") = some nt)
    (h2 : dictGet dd ("depth") = none) :
    (entryCoverage (collectNodes (.dict astData)) syntaxName (.dict dd) = []
        ↔ ∃ n ∈ collectNodes (.dict astData), optPyEq (dictGet n ("type")) nt = true)
      ∧ ((¬ ∃ n ∈ collectNodes (.dict astData), optPyEq (dictGet n ("type")) nt = true)
          → entryCoverage (collectNodes (.dict astData)) syntaxName (.dict dd)
              = [noExampleMsg syntaxName nt]) := by
  have hcov : entryCoverage (collectNodes (.dict astData)) syntaxName (.dict dd)
      = if (collectNodes (.dict astData)).any (fun n => optPyEq (dictGet n ("type")) nt)
        then [] else [noExampleMsg syntaxName nt] := by
    simp only [entryCoverage, h1, h2]
  by_cases hany : (collectNodes (.dict astData)).any
      (fun n => optPyEq (dictGet n ("type")) nt) = true
  · have hex := List.any_eq_true.mp hany
    rw [hcov, if_pos hany]
    exact ⟨⟨fun _ => hex, fun _ => rfl⟩, fun hcon => absurd hex hcon⟩
  · have hnex : ¬ ∃ n ∈ collectNodes (.dict astData), optPyEq (dictGet n ("type")) nt = true :=
      fun hex => hany (List.any_eq_true.mpr hex)
    rw [hcov, if_neg hany]
    refine ⟨⟨fun he => absurd he (by simp), fun hex => absurd hex hnex⟩, fun _ => rfl⟩

/-- Witness for C1 at a concrete schema entry and AST. -/
theorem coverage_no_depth_iff_witness :
    (entryCoverage (collectNodes (.dict [(("a"), Value.dict [(("type"), Value.str ("x"))])]))
        ("Foo") (.dict [(("node_type"), Value.str ("x"))]) = []
      ↔ ∃ n ∈ collectNodes (.dict [(("a"), Value.dict [(("type"), Value.str ("x"))])]),
          optPyEq (dictGet n ("type")) (Value.str ("x")) = true)
    ∧ ((¬ ∃ n ∈ collectNodes (.dict [(("a"), Value.dict [(("type"), Value.str ("x"))])]),
          optPyEq (dictGet n ("type")) (Value.str ("x")) = true)
        → entryCoverage (collectNodes (.dict [(("a"), Value.dict [(("type"), Value.str ("x"))])]))
            ("Foo") (.dict [(("node_type"), Value.str ("x"))])
            = [noExampleMsg ("Foo") (Value.str ("x"))]) :=
  coverage_no_depth_iff [(("a"), Value.dict [(("type"), Value.str ("x"))])] ("Foo")
    [(("node_type"), Value.str ("x"))] (Value.str ("x")) rfl rfl

/-- C2 counterexample: a document with an unterminated string is not
answered with any failure — `parseRonContent` returns an ordinary
mapping in which the unterminated string is absorbed to the end of the
input.  There is no `SyntaxError` channel anywhere in the parser: every
internal exception is caught and converted to a returned value. -/
theorem parse_unterminated_string_returns_value :
    parseRonContent ("RootNode \x7b value: \"abc \x7d")
      = [(("value"), Value.str ("abc"))] := by rfl

/-- C2 amended: the parser is total and never signals failure to the
caller; unterminated brackets and unterminated `Some(` wrappers inside
an object are absorbed, a document with no recognised shape falls back
to a `raw_content` mapping, and an object with an unterminated brace
yields the empty mapping. -/
theorem parse_total_on_unterminated_inputs :
    parseRonContent ("RootNode \x7b children: [1, 2 \x7d")
        = [(("children"), Value.list [Value.str ("1"), Value.str ("2")])]
    ∧ parseRonContent ("RootNode \x7b depth: Some(1 \x7d")
        = [(("depth"), Value.str (""))]
    ∧ parseRonContent ("x: [1, 2")
        = [(("raw_content"), Value.str ("x: [1, 2"))]
    ∧ parseRonContent ("RootNode \x7b a: \"xy") = [] :=
  ⟨rfl, rfl, rfl, rfl⟩

/-- C4: the end-to-end scenario.  Parsing the two documents yields the
schema entry (its `depth` read back as the string `"1"`) and the
single heading node; validation returns the empty diagnostic sequence;
generation returns, under the `display_hints` wrapper, a hint with
`type` `heading`, `style` `block`, `decoration` `#` and
`markdown_syntax` `#`, no `children` key, and the node's own `depth`
copied as `attr_depth`. -/
theorem end_to_end_heading_scenario :
    scenarioSyntax = [(("Heading1"), Value.dict
        [(("node_type"), Value.str ("heading")), (("depth"), Value.str ("1")),
         (("markdown_syntax"), Value.str ("#"))])]
    ∧ scenarioAst = [(("type"), Value.str ("heading")), (("depth"), Value.int 1),
        (("children"), Value.list [])]
    ∧ validate scenarioSyntax scenarioAst = .ok []
    ∧ generate scenarioSyntax scenarioAst
        = .ok (some (.dict [(("display_hints"), Value.dict scenarioHint)]))
    ∧ dictGet scenarioHint ("type") = some (Value.str ("heading"))
    ∧ dictGet scenarioHint ("style") = some (Value.str ("block"))
    ∧ dictGet scenarioHint ("decoration") = some (Value.str ("#"))
    ∧ dictGet scenarioHint ("markdown_syntax") = some (Value.str ("#"))
    ∧ dictGet scenarioHint ("children") = none := by
  have hs : scenarioSyntax = [(("Heading1"), Value.dict
      [(("node_type"), Value.str ("heading")), (("depth"), Value.str ("1")),
       (("markdown_syntax"), Value.str ("#"))])] := by rfl
  have ha : scenarioAst = [(("type"), Value.str ("heading")), (("depth"), Value.int 1),
      (("children"), Value.list [])] := by rfl
  refine ⟨hs, ha, ?_, ?_, rfl, rfl, rfl, rfl, rfl⟩
  · rw [hs, ha]
    simp [validate, extractSyntaxNodes, extractFromEntries, dictGet, walkEntries,
      validateNode, isValidNodeType, hashable, snHasKey, snGet, snInsert, commonTypes,
      validateSyntaxCoverage, getSyntaxDefinitions, collectNodes, collectFromEntries,
      collectFromList, entryCoverage, pyEq, coerceDepth, isPyDigits, pyDigitsToInt,
      optPyEq]
  · rw [hs, ha]
    simp +decide [scenarioHint, generate, extractSyntaxNodes, extractFromEntries, dictGet,
      generateBody, findRootNode, pyTruthy, generateSimpleHints, getDisplayInfo, hashable,
      snGet, snInsert, pyEq, determineStyle, blockTypes, inlineTypes, dictGetD,
      addAttrEntries, dictInsert, genChildren, pyLower, pyLowerChar]

/-- C3 counterexample: `validate` does fail on malformed input of
scalar kind — an AST node whose `type` is the integer `5` (produced by
the parser for `type: 5`) reaches `node_type.lower()` in
`_is_valid_node_type` and raises `AttributeError` instead of producing
a diagnostic. -/
theorem validate_raises_on_nonstring_type :
    validate [] [(("a"), Value.dict [(("type"), Value.int 5)])]
      = .error .attributeError := by
  simp [validate, extractSyntaxNodes, extractFromEntries, dictGet, walkEntries,
    validateNode, isValidNodeType, hashable, snHasKey, snGet, commonTypes,
    validateSyntaxCoverage, getSyntaxDefinitions]

theorem extractFromEntries_ok {d : PyDict} (acc : SynNodes)
    (h : hashableNodeTypes d = true) : ∃ sn, extractFromEntries acc d = .ok sn := by
  induction d generalizing acc with
  | nil => exact ⟨acc, rfl⟩
  | cons kv rest ih =>
    obtain ⟨k, v⟩ := kv
    cases v with
    | dict dd =>
      simp only [hashableNodeTypes, Bool.and_eq_true] at h
      cases hnt : dictGet dd ("node_type") with
      | none =>
        simp only [extractFromEntries, hnt]
        exact ih _ h.2
      | some nt =>
        rw [hnt] at h
        have h1 : hashable nt = true := h.1
        simp only [extractFromEntries, hnt, h1, if_true]
        exact ih _ h.2
    | str s =>
      simp only [hashableNodeTypes] at h
      simp only [extractFromEntries]
      exact ih _ h
    | int n =>
      simp only [hashableNodeTypes] at h
      simp only [extractFromEntries]
      exact ih _ h
    | bool b =>
      simp only [hashableNodeTypes] at h
      simp only [extractFromEntries]
      exact ih _ h
    | float m e =>
      simp only [hashableNodeTypes] at h
      simp only [extractFromEntries]
      exact ih _ h
    | list xs =>
      simp only [hashableNodeTypes] at h
      simp only [extractFromEntries]
      exact ih _ h

theorem extractSyntaxNodes_ok {synData : PyDict} (h : goodSyntax synData = true) :
    ∃ sn, extractSyntaxNodes synData = .ok sn := by
  unfold goodSyntax at h
  unfold extractSyntaxNodes
  cases hr : dictGet synData ("root") with
  | none =>
    rw [hr] at h
    exact extractFromEntries_ok [] h
  | some v =>
    rw [hr] at h
    cases v <;> first
      | exact extractFromEntries_ok [] h
      | simp at h

theorem strTypedEntries_get {es : PyDict} {k : String} {v : Value}
    (h : strTypedEntries es = true) (hg : dictGet es k = some v) :
    strTyped v = true := by
  induction es with
  | nil => simp [dictGet] at hg
  | cons kv rest ih =>
    obtain ⟨k', v'⟩ := kv
    rw [strTypedEntries, Bool.and_eq_true] at h
    by_cases hk : k' = k
    · rw [dictGet, if_pos hk] at hg
      cases hg
      exact h.1
    · rw [dictGet, if_neg hk] at hg
      exact ih h.2 hg

theorem structural_walk_no_raise (N : Nat) :
    (∀ (node : PyDict) (sn : SynNodes) (pt : Option Value) (i : Nat),
        sizeOf node ≤ N → strTyped (.dict node) = true →
        ∃ es, validateNode sn node pt i = .ok es)
    ∧ (∀ (cs : List Value) (sn : SynNodes) (ptv : Value) (i : Nat),
        sizeOf cs ≤ N → strTypedList cs = true →
        ∃ es, validateChildren sn ptv cs i = .ok es) := by
  induction N with
  | zero =>
    constructor
    · intro node _ _ _ hsz _
      exfalso
      have : 1 ≤ sizeOf node := by
        cases node <;> (simp; try omega)
      omega
    · intro cs _ _ _ hsz _
      exfalso
      have : 1 ≤ sizeOf cs := by
        cases cs <;> (simp; try omega)
      omega
  | succ N ih =>
    constructor
    · intro node sn pt i hsz hst
      rw [strTyped, Bool.and_eq_true] at hst
      obtain ⟨htf, hents⟩ := hst
      rw [validateNode.eq_def]
      cases htyp : dictGet node ("type") with
      | none => exact ⟨_, rfl⟩
      | some nodeType =>
        have hstr : ∃ s, nodeType = .str s := by
          unfold typeFieldIsStr at htf
          rw [htyp] at htf
          cases nodeType <;> simp at htf
          exact ⟨_, rfl⟩
        obtain ⟨s, rfl⟩ := hstr
        have hval : isValidNodeType sn (Value.str s)
            = .ok (commonTypes.contains s || snHasKey sn (.str s)
                || snHasKey sn (.str (pyLower s))) := rfl
        simp only [hval]
        cases hb : (commonTypes.contains s || snHasKey sn (.str s)
            || snHasKey sn (.str (pyLower s))) with
        | false => exact ⟨_, rfl⟩
        | true =>
          have hpos : validatePositionRules (Value.str s) i
              = .ok (if pyLower s = ("frontmatter") ∧ 0 < i then [frontmatterMsg] else []) := rfl
          simp only [hpos]
          have hchild : ∃ ce, childErrsOf sn (Value.str s) node = .ok ce := by
            rw [childErrsOf.eq_def]
            cases hch : dictGet node ("children") with
            | none => exact ⟨_, rfl⟩
            | some cv =>
              cases cv with
              | list cs =>
                have hszc : sizeOf cs ≤ N := by
                  have := dictGet_sizeOf_lt hch
                  simp at this
                  omega
                have hstc : strTypedList cs = true := by
                  have := strTypedEntries_get hents hch
                  rwa [strTyped] at this
                exact ih.2 cs sn (.str s) 0 hszc hstc
              | str t => exact ⟨_, rfl⟩
              | int n => exact ⟨_, rfl⟩
              | bool b => exact ⟨_, rfl⟩
              | float m e => exact ⟨_, rfl⟩
              | dict dd => exact ⟨_, rfl⟩
          obtain ⟨ce, hce⟩ := hchild
          simp only [hce]
          exact ⟨_, rfl⟩
    · intro cs sn ptv i hsz hstl
      cases cs with
      | nil => exact ⟨[], by simp [validateChildren]⟩
      | cons c rest =>
        rw [strTypedList, Bool.and_eq_true] at hstl
        obtain ⟨hc1, hcr⟩ := hstl
        have hszr : sizeOf rest ≤ N := by
          simp at hsz
          omega
        obtain ⟨e2, he2⟩ := ih.2 rest sn ptv (i + 1) hszr hcr
        cases c with
        | dict d =>
          have hszd : sizeOf d ≤ N := by
            simp at hsz
            omega
          obtain ⟨e1, he1⟩ := ih.1 d sn (some ptv) i hszd hc1
          refine ⟨e1 ++ e2, ?_⟩
          simp [validateChildren, he1, he2]
        | str t => exact ⟨e2, by simp [validateChildren, he2]⟩
        | int n => exact ⟨e2, by simp [validateChildren, he2]⟩
        | bool b => exact ⟨e2, by simp [validateChildren, he2]⟩
        | float m e => exact ⟨e2, by simp [validateChildren, he2]⟩
        | list xs => exact ⟨e2, by simp [validateChildren, he2]⟩

theorem walkEntries_ok (sn : SynNodes) (es : PyDict)
    (h : strTypedEntries es = true) : ∃ ds, walkEntries sn es = .ok ds := by
  induction es with
  | nil => exact ⟨[], rfl⟩
  | cons kv rest ih =>
    obtain ⟨k, v⟩ := kv
    rw [strTypedEntries, Bool.and_eq_true] at h
    obtain ⟨hv, hrest⟩ := h
    obtain ⟨ds, hds⟩ := ih hrest
    cases v with
    | dict d =>
      obtain ⟨bs, hbs⟩ := (structural_walk_no_raise (sizeOf d)).1 d sn none 0 le_rfl hv
      by_cases ht : (dictGet d ("type")).isSome
      · exact ⟨bs ++ ds, by simp [walkEntries, ht, hbs, hds]⟩
      · by_cases hrk : pyLower k = ("rootnode")
        · exact ⟨bs ++ ds, by simp [walkEntries, ht, hrk, hbs, hds]⟩
        · exact ⟨ds, by simp [walkEntries, ht, hrk, hds]⟩
    | str t => exact ⟨ds, by simp [walkEntries, hds]⟩
    | int n => exact ⟨ds, by simp [walkEntries, hds]⟩
    | bool b => exact ⟨ds, by simp [walkEntries, hds]⟩
    | float m e => exact ⟨ds, by simp [walkEntries, hds]⟩
    | list xs => exact ⟨ds, by simp [walkEntries, hds]⟩

/-- C3 amended: `validate` returns a Diagnostic sequence and raises no
exception on every input whose nodes' `type` fields are strings and
whose syntax dict has a dict-shaped (or absent) `root` entry with
hashable `node_type` values; outside that class malformed input can
raise (a non-string `type` unknown to the schema raises
`AttributeError`, an unhashable `type` or schema `node_type` raises
`TypeError`, a non-dict `root` in the syntax raises `AttributeError`)
instead of producing diagnostics. -/
theorem validate_ok_on_string_typed_input (synData astData : PyDict)
    (hsyn : goodSyntax synData = true)
    (hast : strTyped (.dict astData) = true) :
    ∃ ds, validate synData astData = .ok ds := by
  obtain ⟨sn, hsn⟩ := extractSyntaxNodes_ok hsyn
  rw [strTyped, Bool.and_eq_true] at hast
  obtain ⟨htf, hents⟩ := hast
  have hwalk : ∃ ws, (match dictGet astData ("root") with
      | some (Value.dict d) => walkEntries sn d
      | some _ => .ok []
      | none => walkEntries sn astData) = .ok ws := by
    cases hr : dictGet astData ("root") with
    | none => exact walkEntries_ok sn astData hents
    | some v =>
      cases v with
      | dict d =>
        have hd := strTypedEntries_get hents hr
        rw [strTyped, Bool.and_eq_true] at hd
        exact walkEntries_ok sn d hd.2
      | str t => exact ⟨[], rfl⟩
      | int n => exact ⟨[], rfl⟩
      | bool b => exact ⟨[], rfl⟩
      | float m e => exact ⟨[], rfl⟩
      | list xs => exact ⟨[], rfl⟩
  obtain ⟨ws, hws⟩ := hwalk
  have hcov : ∃ cov, validateSyntaxCoverage synData astData = .ok cov := by
    unfold validateSyntaxCoverage getSyntaxDefinitions
    unfold goodSyntax at hsyn
    cases hr : dictGet synData ("root") with
    | none => exact ⟨_, rfl⟩
    | some v =>
      rw [hr] at hsyn
      cases v <;> first
        | exact ⟨_, rfl⟩
        | simp at hsyn
  obtain ⟨cov, hcov⟩ := hcov
  refine ⟨ws ++ cov, ?_⟩
  unfold validate
  rw [hsn]
  simp only [hws, hcov]

/-- Witness for C3's amended statement at a concrete schema and AST. -/
theorem validate_ok_on_string_typed_input_witness :
    ∃ ds, validate [(("H"), Value.dict [(("node_type"), Value.str ("x"))])]
      [(("a"), Value.dict [(("type"), Value.str ("x"))])] = .ok ds :=
  validate_ok_on_string_typed_input
    [(("H"), Value.dict [(("node_type"), Value.str ("x"))])]
    [(("a"), Value.dict [(("type"), Value.str ("x"))])]
    (by rfl)
    (by simp [strTyped, strTypedEntries, strTypedList, typeFieldIsStr, dictGet])

theorem walkEntries_flat_ok (sn : SynNodes) (es : PyDict)
    (h : es.all (fun kv => !isDictValue kv.2) = true) :
    walkEntries sn es = .ok [] := by
  induction es with
  | nil => rfl
  | cons kv rest ih =>
    obtain ⟨k, v⟩ := kv
    rw [List.all_cons, Bool.and_eq_true] at h
    cases v with
    | dict d => simp [isDictValue] at h
    | str t => simp [walkEntries, ih h.2]
    | int n => simp [walkEntries, ih h.2]
    | bool b => simp [walkEntries, ih h.2]
    | float m e => simp [walkEntries, ih h.2]
    | list xs => simp [walkEntries, ih h.2]

/-- C5 counterexample: the two document shapes do not receive the same
structural checks.  The same depth-less heading node yields no
structural diagnostic when it is itself the top-level parsed value,
but yields the missing-`depth` diagnostic when it sits one level
inside a wrapper — the walk never locates a node-shaped value at the
top level itself. -/
theorem walk_skips_top_level_node :
    validate [] [(("type"), Value.str ("heading")), (("children"), Value.list [])]
      = .ok []
    ∧ validate [] [(("doc"), Value.dict [(("type"), Value.str ("heading")),
        (("children"), Value.list [])])]
      = .ok [headingDepthAttrMsg] := by
  constructor <;>
    simp +decide [validate, extractSyntaxNodes, extractFromEntries, dictGet, walkEntries,
      validateNode, isValidNodeType, hashable, snHasKey, snGet, commonTypes, childErrsOf,
      validateChildren, validatePositionRules, validateAttributes, pyEq, pyLower, pyLowerChar,
      validateSyntaxCoverage, getSyntaxDefinitions, collectNodes, collectFromEntries,
      collectFromList]

/-- C5 amended: the structural walk examines only the entries of the
resolved top-level mapping.  When the mapping has no `root` entry and
none of its values is a dict — in particular when the mapping is
itself a node-shaped value — the walk contributes no diagnostics at
all, and `validate` returns exactly the coverage diagnostics; a
node-shaped dict sitting one level inside, under any key, is validated
in full by `validateNode`. -/
theorem walk_validates_wrapped_nodes_only (synData astData : PyDict) (sn : SynNodes)
    (k : String) (d : PyDict)
    (hroot : dictGet astData ("root") = none)
    (hflat : astData.all (fun kv => !isDictValue kv.2) = true)
    (hsn : extractSyntaxNodes synData = .ok sn)
    (htype : (dictGet d ("type")).isSome = true) :
    validate synData astData = validateSyntaxCoverage synData astData
    ∧ walkEntries sn [(k, Value.dict d)] = validateNode sn d none 0 := by
  constructor
  · unfold validate
    simp only [hsn, hroot, walkEntries_flat_ok sn astData hflat]
    cases hcov : validateSyntaxCoverage synData astData with
    | error e => simp [hcov]
    | ok cov => simp [hcov]
  · cases hv : validateNode sn d none 0 with
    | error e => simp [walkEntries, htype, hv]
    | ok errs => simp [walkEntries, htype, hv]

/-- Witness for C5's amended statement at a concrete wrapper-free and
wrapped AST. -/
theorem walk_validates_wrapped_nodes_only_witness :
    validate [] [(("type"), Value.str ("heading")), (("children"), Value.list [])]
      = validateSyntaxCoverage [] [(("type"), Value.str ("heading")),
          (("children"), Value.list [])]
    ∧ walkEntries [] [(("doc"), Value.dict [(("type"), Value.str ("heading"))])]
      = validateNode [] [(("type"), Value.str ("heading"))] none 0 :=
  walk_validates_wrapped_nodes_only [] [(("type"), Value.str ("heading")),
      (("children"), Value.list [])] [] ("doc") [(("type"), Value.str ("heading"))]
    rfl rfl rfl rfl

/-- C6: the heading-depth coverage check coerces a string-encoded
schema depth to an integer before comparing it (with Python `==`)
against each example heading's own `depth` attribute, and on the
concrete two-entry schema (depths "1" and "2") with an AST supplying
only a depth-1 heading, validation returns exactly the one coverage
diagnostic naming the missing depth 2. -/
theorem heading_depth_coverage (ns : List PyDict) (syntaxName : String)
    (dd : PyDict) (s : String)
    (h1 : dictGet dd ("node_type") = some (Value.str ("heading")))
    (h2 : dictGet dd ("depth") = some (Value.str s))
    (h3 : isPyDigits s.data = true) :
    entryCoverage ns syntaxName (.dict dd)
      = (if ns.any (fun n => optPyEq (dictGet n ("type")) (Value.str ("heading"))
            && optPyEq (dictGet n ("depth")) (Value.int (pyDigitsToInt s.data)))
         then [] else [depthExampleMsg syntaxName (Value.int (pyDigitsToInt s.data))])
    ∧ validate synDepthPair astDepthOne
        = .ok [depthExampleMsg ("H2") (Value.int 2)] := by
  constructor
  · simp only [entryCoverage, h1, h2]
    have hph : pyEq (Value.str ("heading")) (Value.str ("heading")) = true := by
      simp [pyEq]
    simp [hph, coerceDepth, h3]
  · simp +decide [synDepthPair, astDepthOne, validate, extractSyntaxNodes,
      extractFromEntries, dictGet, walkEntries, validateNode, isValidNodeType, hashable,
      snHasKey, snGet, snInsert, commonTypes, childErrsOf, validateChildren,
      validatePositionRules, validateAttributes, pyEq, pyLower, pyLowerChar,
      validateSyntaxCoverage, getSyntaxDefinitions, collectNodes, collectFromEntries,
      collectFromList, entryCoverage, coerceDepth, isPyDigits, pyDigitsToInt, optPyEq,
      depthExampleMsg, pyStr]

/-- Witness for C6 at a concrete depth-2 schema entry. -/
theorem heading_depth_coverage_witness :
    (entryCoverage [] ("H") (.dict [(("node_type"), Value.str ("heading")),
        (("depth"), Value.str ("2"))])
      = (if ([] : List PyDict).any (fun n =>
            optPyEq (dictGet n ("type")) (Value.str ("heading"))
              && optPyEq (dictGet n ("depth")) (Value.int (pyDigitsToInt ("2").data)))
         then [] else [depthExampleMsg ("H") (Value.int (pyDigitsToInt ("2").data))]))
    ∧ validate synDepthPair astDepthOne
        = .ok [depthExampleMsg ("H2") (Value.int 2)] :=
  heading_depth_coverage [] ("H")
    [(("node_type"), Value.str ("heading")), (("depth"), Value.str ("2"))] ("2")
    rfl rfl (by decide)

theorem pyEq_refl_of_hashable {v : Value} (h : hashable v = true) :
    pyEq v v = true := by
  cases v <;> simp [pyEq] <;> simp [hashable] at h

/-- C7 counterexample: extraction registers the `node_type` value
verbatim, not case-folded — the schema declaration `Foo { node_type:
"Bar" }` is registered under the keys `"Bar"` and `"foo"`, and the
case-folded variant `"bar"` of the declared type does not resolve. -/
theorem extract_registers_node_type_verbatim :
    extractSyntaxNodes [(("Foo"), Value.dict [(("node_type"), Value.str ("Bar"))])]
      = .ok [((Value.str ("Bar")), [(("node_type"), Value.str ("Bar"))]),
             ((Value.str ("foo")), [(("node_type"), Value.str ("Bar"))])]
    ∧ snGet [((Value.str ("Bar")), [(("node_type"), Value.str ("Bar"))]),
             ((Value.str ("foo")), [(("node_type"), Value.str ("Bar"))])]
        (Value.str ("bar")) = none := by
  constructor
  · simp +decide [extractSyntaxNodes, extractFromEntries, dictGet, hashable, snInsert,
      pyEq, pyLower, pyLowerChar]
  · simp [snGet, pyEq]

/-- C7 amended: for every syntax entry whose value is a mapping with a
(hashable) `node_type`, extraction registers the one definition under
the case-folded declaration key and under the `node_type` value
verbatim, and both keys resolve to it; mappings lacking a `node_type`
(and non-mapping values) are silently skipped without error. -/
theorem extract_double_keying (k : String) (d : PyDict) (nt : Value)
    (hk : k ≠ ("root")) (hnt : dictGet d ("node_type") = some nt)
    (hh : hashable nt = true) :
    (∃ sn, extractSyntaxNodes [(k, Value.dict d)] = .ok sn
        ∧ snGet sn (Value.str (pyLower k)) = some d ∧ snGet sn nt = some d)
    ∧ (∀ (k' : String) (v : Value), k' ≠ ("root") → lacksNodeType v = true →
        extractSyntaxNodes [(k', v)] = .ok []) := by
  constructor
  · have hroot : dictGet [(k, Value.dict d)] ("root") = none := by
      simp [dictGet]
      exact hk
    have hx : extractSyntaxNodes [(k, Value.dict d)]
        = .ok (snInsert (snInsert [] nt d) (Value.str (pyLower k)) d) := by
      unfold extractSyntaxNodes
      rw [hroot]
      simp [extractFromEntries, hnt, hh]
    by_cases hc : pyEq nt (Value.str (pyLower k)) = true
    · refine ⟨_, hx, ?_, ?_⟩
      · simp [snInsert, hc, snGet]
      · simp [snInsert, hc, snGet, pyEq_refl_of_hashable hh]
    · refine ⟨_, hx, ?_, ?_⟩
      · simp [snInsert, hc, snGet, pyEq]
      · simp [snInsert, hc, snGet, pyEq_refl_of_hashable hh]
  · intro k' v hk' hlnt
    have hroot : dictGet [(k', v)] ("root") = none := by
      simp [dictGet]
      exact hk'
    unfold extractSyntaxNodes
    rw [hroot]
    cases v with
    | dict dd =>
        rw [lacksNodeType, Option.isNone_iff_eq_none] at hlnt
        simp [extractFromEntries, hlnt]
    | str t => rfl
    | int n => rfl
    | bool b => rfl
    | float m e => rfl
    | list xs => rfl

/-- Witness for C7's amended statement at the counterexample's schema
entry. -/
theorem extract_double_keying_witness :
    (∃ sn, extractSyntaxNodes [(("Foo"), Value.dict
          [(("node_type"), Value.str ("Bar"))])] = .ok sn
        ∧ snGet sn (Value.str (pyLower ("Foo")))
            = some [(("node_type"), Value.str ("Bar"))]
        ∧ snGet sn (Value.str ("Bar")) = some [(("node_type"), Value.str ("Bar"))])
    ∧ (∀ (k' : String) (v : Value), k' ≠ ("root") → lacksNodeType v = true →
        extractSyntaxNodes [(k', v)] = .ok []) :=
  extract_double_keying ("Foo") [(("node_type"), Value.str ("Bar"))]
    (Value.str ("Bar")) (by decide) rfl rfl

/-- C8 counterexample: with a schema that does not declare
`frontmatter`, a frontmatter node appearing as the first (position-0)
child still yields a diagnostic mentioning frontmatter — the
unknown-type diagnostic — contradicting the claim that the first-child
placement yields no such diagnostic for every AST. -/
theorem frontmatter_unknown_type_diagnostic :
    validate [] [(("a"), Value.dict [(("type"), Value.str ("frontmatter"))])]
      = .ok [unknownTypeMsg (Value.str ("frontmatter"))]
    ∧ containsSub (unknownTypeMsg (Value.str ("frontmatter"))).data
        (("frontmatter").data) = true := by
  constructor
  · simp +decide [validate, extractSyntaxNodes, extractFromEntries, dictGet, walkEntries,
      validateNode, isValidNodeType, hashable, snHasKey, snGet, commonTypes,
      validateSyntaxCoverage, getSyntaxDefinitions, collectNodes, collectFromEntries,
      collectFromList, unknownTypeMsg, pyStr]
  · decide

/-- C8 amended: when the node's type is known to the schema model, a
leaf node whose lowercased type is `frontmatter`, validated at sibling
position `i`, yields exactly the positional diagnostic "Frontmatter
node must be first child of Document" when `i > 0` and no diagnostic
when `i = 0`. -/
theorem frontmatter_position_rule (sn : SynNodes) (es : PyDict) (s : String)
    (pt : Option Value) (i : Nat)
    (htype : dictGet es ("type") = some (Value.str s))
    (hlow : pyLower s = ("frontmatter"))
    (hvalid : isValidNodeType sn (Value.str s) = .ok true)
    (hleaf : dictGet es ("children") = none) :
    validateNode sn es pt i = .ok (if 0 < i then [frontmatterMsg] else []) := by
  have hs1 : s ≠ ("heading") := by
    intro h
    subst h
    exact absurd hlow (by decide)
  have hs2 : s ≠ ("link") := by
    intro h
    subst h
    exact absurd hlow (by decide)
  have hs3 : s ≠ ("image") := by
    intro h
    subst h
    exact absurd hlow (by decide)
  rw [validateNode.eq_def]
  simp only [htype, hvalid]
  have hpos : validatePositionRules (Value.str s) i
      = .ok (if 0 < i then [frontmatterMsg] else []) := by
    simp [validatePositionRules, hlow]
  have hch : childErrsOf sn (Value.str s) es = .ok [] := by
    rw [childErrsOf.eq_def]
    split
    · rename_i cs heq
      rw [hleaf] at heq
      cases heq
    · rfl
    · rfl
  have hattr : validateAttributes (Value.str s) es = [] := by
    simp [validateAttributes, pyEq, hs1, hs2, hs3]
  simp [hpos, hch, hattr]

/-- Witness for C8's amended statement: a schema-declared frontmatter
node at position 1 yields the positional diagnostic. -/
theorem frontmatter_position_rule_witness :
    validateNode [((Value.str ("frontmatter")),
        [(("node_type"), Value.str ("frontmatter"))])]
      [(("type"), Value.str ("frontmatter"))] none 1
      = .ok (if 0 < 1 then [frontmatterMsg] else []) :=
  frontmatter_position_rule
    [((Value.str ("frontmatter")), [(("node_type"), Value.str ("frontmatter"))])]
    [(("type"), Value.str ("frontmatter"))] ("frontmatter") none 1
    rfl (by decide)
    (by simp [isValidNodeType, hashable, commonTypes, snHasKey, snGet, pyEq])
    rfl

/-- C9: required-attribute diagnostics are appended after the
children's diagnostics (a heading node's result is the children's
errors followed by its attribute errors; its positional check emits
nothing), and the attribute pass emits one diagnostic per missing
attribute: `depth` for a heading, `url` for a link, and both `url` and
`alt` — two diagnostics — for an image lacking both. -/
theorem required_attribute_rules :
    (∀ (sn : SynNodes) (es : PyDict) (pt : Option Value) (i : Nat) (ce : List String),
        dictGet es ("type") = some (Value.str ("heading")) →
        childErrsOf sn (Value.str ("heading")) es = .ok ce →
        validateNode sn es pt i
          = .ok (ce ++ validateAttributes (Value.str ("heading")) es))
    ∧ (∀ es : PyDict, dictGet es ("depth") = none →
        validateAttributes (Value.str ("heading")) es = [headingDepthAttrMsg])
    ∧ (∀ es : PyDict, dictGet es ("url") = none →
        validateAttributes (Value.str ("link")) es = [linkUrlAttrMsg])
    ∧ (∀ es : PyDict, dictGet es ("url") = none → dictGet es ("alt") = none →
        validateAttributes (Value.str ("image")) es
          = [imageUrlAttrMsg, imageAltAttrMsg]) := by
  have hcommon : commonTypes.contains ("heading") = true := by decide
  have hpl : pyLower ("heading") = ("heading") := by decide
  refine ⟨?_, ?_, ?_, ?_⟩
  · intro sn es pt i ce htype hch
    rw [validateNode.eq_def]
    simp only [htype]
    have hval : isValidNodeType sn (Value.str ("heading")) = .ok true := by
      simp +decide [isValidNodeType, hashable, commonTypes]
    have hpos : validatePositionRules (Value.str ("heading")) i = .ok [] := by
      simp [validatePositionRules, hpl]
    simp [hval, hpos, hch]
  · intro es h
    simp [validateAttributes, pyEq, h]
  · intro es h
    simp [validateAttributes, pyEq, h]
  · intro es h1 h2
    simp [validateAttributes, pyEq, h1, h2]

/-- Witness for C9 at concrete heading, link and image nodes. -/
theorem required_attribute_rules_witness :
    validateNode [] [(("type"), Value.str ("heading"))] none 0
      = .ok ([] ++ validateAttributes (Value.str ("heading"))
          [(("type"), Value.str ("heading"))])
    ∧ validateAttributes (Value.str ("heading")) [(("type"), Value.str ("heading"))]
        = [headingDepthAttrMsg]
    ∧ validateAttributes (Value.str ("link")) [(("type"), Value.str ("link"))]
        = [linkUrlAttrMsg]
    ∧ validateAttributes (Value.str ("image")) [(("type"), Value.str ("image"))]
        = [imageUrlAttrMsg, imageAltAttrMsg] :=
  ⟨required_attribute_rules.1 [] [(("type"), Value.str ("heading"))] none 0 [] rfl
      (by rw [childErrsOf.eq_def]; simp [dictGet]),
   required_attribute_rules.2.1 [(("type"), Value.str ("heading"))] rfl,
   required_attribute_rules.2.2.1 [(("type"), Value.str ("link"))] rfl,
   required_attribute_rules.2.2.2 [(("type"), Value.str ("image"))] rfl rfl⟩

/-- C10: for every fixed built-in type name, the resolved `style` is
the same whether or not the type is present in the schema model — both
the schema branch and the fallback table yield `determineStyle`'s
classification: `root` is a container, the fixed block set is `block`,
the fixed inline set is `inline`, and any name outside those sets is
`unknown`. -/
theorem style_schema_independent (sn : SynNodes) (t : String)
    (h : t ∈ commonTypes) :
    ∃ info, getDisplayInfo sn (Value.str t) = .ok info
      ∧ info.style = determineStyle (Value.str t)
      ∧ determineStyle (Value.str t)
          = (if t = ("root") then ("container")
             else if blockTypes.contains t then ("block")
             else ("inline"))
      ∧ (∀ u : String, u ∉ (("root") :: (blockTypes ++ inlineTypes)) →
          determineStyle (Value.str u) = ("unknown")) := by
  have hunk : ∀ u : String, u ∉ (("root") :: (blockTypes ++ inlineTypes)) →
      determineStyle (Value.str u) = ("unknown") := by
    intro u hu
    simp only [List.mem_cons, List.mem_append] at hu
    push_neg at hu
    obtain ⟨hu1, hu2, hu3⟩ := hu
    simp [determineStyle, pyEq, hu1, hu2, hu3]
  have hcls : determineStyle (Value.str t)
      = (if t = ("root") then ("container")
         else if blockTypes.contains t then ("block")
         else ("inline")) := by
    fin_cases h <;> simp +decide [determineStyle, pyEq, blockTypes, inlineTypes]
  have hfb : (displayMapGet (Value.str t)).style = determineStyle (Value.str t) := by
    fin_cases h <;>
      simp +decide [displayMapGet, displayMap, determineStyle, pyEq, blockTypes,
        inlineTypes]
  cases hsn : snGet sn (Value.str t) with
  | some si =>
      have hg : getDisplayInfo sn (Value.str t)
          = .ok ⟨determineStyle (Value.str t),
              dictGetD si ("markdown_syntax") (Value.str ("")),
              dictGetD si ("markdown_syntax") (Value.str (""))⟩ := by
        unfold getDisplayInfo
        rw [hsn]
        rfl
      exact ⟨_, hg, rfl, hcls, hunk⟩
  | none =>
      have hg : getDisplayInfo sn (Value.str t)
          = .ok (displayMapGet (Value.str t)) := by
        unfold getDisplayInfo
        rw [hsn]
        rfl
      exact ⟨_, hg, hfb, hcls, hunk⟩

/-- Witness for C10 at the `heading` type and the empty schema model. -/
theorem style_schema_independent_witness :
    ∃ info, getDisplayInfo [] (Value.str ("heading")) = .ok info
      ∧ info.style = determineStyle (Value.str ("heading"))
      ∧ determineStyle (Value.str ("heading"))
          = (if ("heading") = ("root") then ("container")
             else if blockTypes.contains ("heading") then ("block")
             else ("inline"))
      ∧ (∀ u : String, u ∉ (("root") :: (blockTypes ++ inlineTypes)) →
          determineStyle (Value.str u) = ("unknown")) :=
  style_schema_independent [] ("heading") (by decide)

end AstSyntaxChecker
